import Mathlib

/-!
Verification of the color-conversion and theming module of `tppgUtil`
(`src/txtPassUtil.js`): `hexToHsl`, `hslToHex`, `lightenHexColor` and
`changetheme`.

JavaScript numbers are modelled as rationals (`ℚ`).  The `NaN` values that
`parseInt` produces on strings that carry no hexadecimal digit are modelled
by `Option` (`none` = NaN): in the JavaScript source a NaN channel
contaminates the whole HSL triple (NaN propagates through `Math.max`,
`Math.min` and every arithmetic operation, every comparison with NaN is
false, and the un-matched `switch` leaves `h` undefined, so the function
returns `[NaN, NaN, NaN]`), which is why one `Option` layer around the
whole triple is a faithful model.  Strings are handled through their
character lists.
-/

/-- JavaScript truncation toward zero (the implicit truncation that the
`%` operator applies to the quotient). -/
def jsTrunc (q : ℚ) : ℤ := if 0 ≤ q then ⌊q⌋ else ⌈q⌉

/-- JavaScript `%` (remainder with the sign of the dividend):
`a % b = a - b * trunc (a / b)` for finite numbers. -/
def jsMod (a b : ℚ) : ℚ := a - b * (jsTrunc (a / b) : ℚ)

/-- JavaScript `Math.round`: round half toward positive infinity. -/
def jsRound (q : ℚ) : ℤ := ⌊q + 1 / 2⌋

/-- JavaScript `ToInt32`: reduce an integer into `[-2^31, 2^31)`. -/
def toInt32 (n : ℤ) : ℤ :=
  if n % 4294967296 < 2147483648 then n % 4294967296 else n % 4294967296 - 4294967296

/-- JavaScript `a << k` on an integer value `a` (shift of the 32-bit
truncation, with a 32-bit signed result). -/
def jsShl (a : ℤ) (k : ℕ) : ℤ := toInt32 (a * 2 ^ k)

/-- The character `Number.prototype.toString(16)` uses for one hexadecimal
digit (lowercase letters). -/
def hexDigitChar (n : ℕ) : Char :=
  if n < 10 then Char.ofNat (48 + n) else Char.ofNat (87 + n)

/-- Digit accumulation loop of `Number.prototype.toString(16)`. -/
def natToHexAux (n : ℕ) (acc : List Char) : List Char :=
  if h : n = 0 then acc else natToHexAux (n / 16) (hexDigitChar (n % 16) :: acc)
termination_by n
decreasing_by exact Nat.div_lt_self (Nat.pos_of_ne_zero h) (by norm_num)

/-- `Number.prototype.toString(16)` for a natural number, as a character
list. -/
def natToHex (n : ℕ) : List Char := if n = 0 then ['0'] else natToHexAux n []

/-- `Number.prototype.toString(16)` for an integer, as a character list
(negative numbers are rendered with a leading minus sign). -/
def intToString16 (n : ℤ) : List Char :=
  if n < 0 then '-' :: natToHex n.natAbs else natToHex n.toNat

/-- The rendering step of `hslToHex` (source lines 113-116):
`"#" + ((1 << 24) + (r << 16) + (g << 8) + b).toString(16).slice(1).toUpperCase()`. -/
def renderHex (r g b : ℤ) : String :=
  String.mk ('#' :: ((intToString16 (jsShl 1 24 + jsShl r 16 + jsShl g 8 + b)).drop 1).map
    Char.toUpper)

/-- The channel computation of `hslToHex` (source lines 86-111): chroma,
intermediate value, offset, six-sector dispatch and rounding.  Returns the
three rounded 8-bit channel values. -/
def hslChannels (h s l : ℚ) : ℤ × ℤ × ℤ :=
  let s := s / 100
  let l := l / 100
  let c := (1 - |2 * l - 1|) * s
  let x := c * (1 - |jsMod (h / 60) 2 - 1|)
  let m := l - c / 2
  let rgb : ℚ × ℚ × ℚ :=
    if 0 ≤ h ∧ h < 60 then (c, x, 0)
    else if 60 ≤ h ∧ h < 120 then (x, c, 0)
    else if 120 ≤ h ∧ h < 180 then (0, c, x)
    else if 180 ≤ h ∧ h < 240 then (0, x, c)
    else if 240 ≤ h ∧ h < 300 then (x, 0, c)
    else if 300 ≤ h ∧ h < 360 then (c, 0, x)
    else (0, 0, 0)
  (jsRound ((rgb.1 + m) * 255), jsRound ((rgb.2.1 + m) * 255), jsRound ((rgb.2.2 + m) * 255))

/-- `hslToHex(h, s, l)` from the source: channel computation followed by
hex rendering. -/
def hslToHex (h s l : ℚ) : String :=
  let rgb := hslChannels h s l
  renderHex rgb.1 rgb.2.1 rgb.2.2

/-- ASCII white-space recognized by `parseInt` before the number
(the non-ASCII members of the JavaScript *StrWhiteSpace* set cannot occur
in the inputs considered here). -/
def isJsSpace (c : Char) : Bool :=
  decide (c.toNat = 32 ∨ c.toNat = 9 ∨ c.toNat = 10 ∨ c.toNat = 13 ∨ c.toNat = 11 ∨ c.toNat = 12)

/-- A radix-16 digit as accepted by `parseInt(_, 16)`: `0-9`, `A-F`, `a-f`. -/
def isHexDigit (c : Char) : Bool :=
  decide ((48 ≤ c.toNat ∧ c.toNat ≤ 57) ∨ (65 ≤ c.toNat ∧ c.toNat ≤ 70) ∨
    (97 ≤ c.toNat ∧ c.toNat ≤ 102))

/-- Value of a radix-16 digit character (0 on non-digits; only applied to
digits). -/
def hexVal (c : Char) : ℕ :=
  if 48 ≤ c.toNat ∧ c.toNat ≤ 57 then c.toNat - 48
  else if 65 ≤ c.toNat ∧ c.toNat ≤ 70 then c.toNat - 55
  else if 97 ≤ c.toNat ∧ c.toNat ≤ 102 then c.toNat - 87
  else 0

/-- Accumulation over the longest prefix of radix-16 digits
(step 11 of the `parseInt` algorithm). -/
def hexDigitsVal : List Char → ℕ → ℕ
  | c :: rest, acc => if isHexDigit c then hexDigitsVal rest (16 * acc + hexVal c) else acc
  | [], acc => acc

/-- JavaScript `parseInt(s, 16)`: trim leading white space, read an
optional sign, skip an optional `0x`/`0X` marker, then evaluate the
longest prefix of hexadecimal digits; `none` models the NaN returned when
that prefix is empty. -/
def parseIntHex (cs : List Char) : Option ℤ :=
  let cs := cs.dropWhile isJsSpace
  let sign : ℤ := if cs.head? = some '-' then -1 else 1
  let cs := if cs.head? = some '-' ∨ cs.head? = some '+' then cs.tail else cs
  let cs := if cs.take 2 = ['0', 'x'] ∨ cs.take 2 = ['0', 'X'] then cs.drop 2 else cs
  match cs with
  | [] => none
  | c :: rest => if isHexDigit c then some (sign * (hexDigitsVal rest (hexVal c) : ℤ)) else none

/-- `hex.replace(/^#/, '')`: remove one leading `#` if present. -/
def stripHashL : List Char → List Char
  | '#' :: rest => rest
  | cs => cs

/-- The RGB→HSL computation of `hexToHsl` (source lines 50-69), applied to
the three channel values already divided by 255. -/
def hslCore (r g b : ℚ) : ℚ × ℚ × ℚ :=
  let maxv := max r (max g b)
  let minv := min r (min g b)
  let l := (maxv + minv) / 2
  if maxv = minv then
    (0, 0, l * 100)
  else
    let d := maxv - minv
    let s := if l > 0.5 then d / (2 - maxv - minv) else d / (maxv + minv)
    let h :=
      (if maxv = r then (g - b) / d + (if g < b then (6 : ℚ) else 0)
       else if maxv = g then (b - r) / d + 2
       else (r - g) / d + 4) * 60
    (h, s * 100, l * 100)

/-- `hexToHsl` after the `#` strip, on the character list of the string:
length dispatch, channel parsing (3-digit form duplicates each digit,
6-digit form takes the three 2-character substrings) and the RGB→HSL core.
A length other than 3 or 6 throws `'Invalid HEX color.'`. -/
def hexToHslL (cs : List Char) : Except String (Option (ℚ × ℚ × ℚ)) :=
  if cs.length = 3 then
    .ok (do
      let r ← parseIntHex [cs.getD 0 ' ', cs.getD 0 ' ']
      let g ← parseIntHex [cs.getD 1 ' ', cs.getD 1 ' ']
      let b ← parseIntHex [cs.getD 2 ' ', cs.getD 2 ' ']
      some (hslCore ((r : ℚ) / 255) ((g : ℚ) / 255) ((b : ℚ) / 255)))
  else if cs.length = 6 then
    .ok (do
      let r ← parseIntHex (cs.take 2)
      let g ← parseIntHex ((cs.drop 2).take 2)
      let b ← parseIntHex ((cs.drop 4).take 2)
      some (hslCore ((r : ℚ) / 255) ((g : ℚ) / 255) ((b : ℚ) / 255)))
  else .error "Invalid HEX color."

/-- `hexToHsl(hex)` from the source.  `.error` models the thrown
exception, the inner `none` models the all-NaN triple (see the header
comment). -/
def hexToHsl (hex : String) : Except String (Option (ℚ × ℚ × ℚ)) :=
  hexToHslL (stripHashL hex.toList)

/-- `lightenHexColor(hexColor, percent)` from the source.  On the NaN
triple the JavaScript code evaluates `hslToHex(NaN, NaN, 90)`: every
sector comparison with NaN is false (so `r = g = b = 0`), the rounded
channels are NaN, `ToInt32(NaN) = 0` inside `<<`, and the packed value is
`1 << 24`, rendered as `"#000000"`; that concrete outcome is inlined
here. -/
def lightenHexColor (hexColor : String) (percent : ℚ) : Except String String :=
  match hexToHsl hexColor with
  | .error e => .error e
  | .ok none => .ok "#000000"
  | .ok (some (h, s, l)) =>
    let newL := min 100 (l + percent)
    let newS : ℚ := 90
    .ok (hslToHex h s newS)

/-- The document-root style state written by `changetheme`: a map from
custom-property names to their current values (the external style sink). -/
def StyleState := String → Option String

/-- `document.documentElement.style.setProperty(k, v)`. -/
def setProperty (st : StyleState) (k v : String) : StyleState :=
  fun k' => if k' = k then some v else st k'

/-- The empty style sink (no property set). -/
def emptyStyle : StyleState := fun _ => none

/-- `changetheme(themecolor)` from the source, as a state transformer on
the style sink: the primary property is written first, then the accent
color is computed (which can throw) and written.  The returned
`Except String Unit` records normal return versus a propagated
exception; the returned state keeps every write performed before the
throw. -/
def changetheme (themecolor : Option String) (st : StyleState) :
    StyleState × Except String Unit :=
  let color := match themecolor with
    | none => "#0f699d"
    | some s => if s = "" then "#0f699d" else s
  let st := setProperty st "--primary-color" color
  match lightenHexColor color (463 / 10) with
  | .error e => (st, .error e)
  | .ok accentcolor => (setProperty st "--accent-color" accentcolor, .ok ())

/-- Specification-side decoder: the three 8-bit channels encoded by six
hexadecimal digit characters. -/
def hexChannels (cs : List Char) : ℕ × ℕ × ℕ :=
  (16 * hexVal (cs.getD 0 '0') + hexVal (cs.getD 1 '0'),
   16 * hexVal (cs.getD 2 '0') + hexVal (cs.getD 3 '0'),
   16 * hexVal (cs.getD 4 '0') + hexVal (cs.getD 5 '0'))

/-- Specification-side predicate: an uppercase hexadecimal digit. -/
def isUpperHexDigit (c : Char) : Bool :=
  decide ((48 ≤ c.toNat ∧ c.toNat ≤ 57) ∨ (65 ≤ c.toNat ∧ c.toNat ≤ 70))

/-! ### Arithmetic facts about the JavaScript primitives -/

theorem jsTrunc_of_nonneg {q : ℚ} (h : 0 ≤ q) : jsTrunc q = ⌊q⌋ := if_pos h

theorem jsRound_intCast (n : ℤ) : jsRound (n : ℚ) = n := by
  rw [jsRound, add_comm, Int.floor_add_int]
  norm_num

theorem jsRound_nonneg {q : ℚ} (h : 0 ≤ q) : 0 ≤ jsRound q := by
  rw [jsRound]
  exact Int.le_floor.mpr (by push_cast; linarith)

theorem jsRound_le_255 {q : ℚ} (h : q ≤ 255) : jsRound q ≤ 255 := by
  have : jsRound q < 256 := by
    rw [jsRound]
    exact Int.floor_lt.mpr (by push_cast; linarith)
  omega

theorem jsMod_two {t : ℚ} (k : ℤ) (hk : 0 ≤ k) (h1 : 2 * k ≤ t) (h2 : t < 2 * k + 2) :
    jsMod t 2 = t - 2 * k := by
  have hk' : (0 : ℚ) ≤ (k : ℚ) := by exact_mod_cast hk
  have ht : (0 : ℚ) ≤ t := by linarith
  have hfl : ⌊t / 2⌋ = k := by
    rw [Int.floor_eq_iff]
    constructor <;> linarith
  rw [jsMod, jsTrunc_of_nonneg (by linarith : (0:ℚ) ≤ t / 2), hfl]

theorem jsMod_two_nonneg {t : ℚ} (ht : 0 ≤ t) : 0 ≤ jsMod t 2 ∧ jsMod t 2 < 2 := by
  have h2 : (0 : ℚ) ≤ t / 2 := by linarith
  have hle := Int.floor_le (t / 2)
  have hlt := Int.lt_floor_add_one (t / 2)
  rw [jsMod, jsTrunc_of_nonneg h2]
  constructor <;> [linarith; linarith]

/-! ### Evaluation of the six-sector dispatch of `hslChannels` -/

theorem hslChannels_sector0 {h s l : ℚ} (cv xv mv : ℚ)
    (hh : 0 ≤ h ∧ h < 60)
    (hc : (1 - |2 * (l / 100) - 1|) * (s / 100) = cv)
    (hx : cv * (1 - |jsMod (h / 60) 2 - 1|) = xv)
    (hm : l / 100 - cv / 2 = mv) :
    hslChannels h s l =
      (jsRound ((cv + mv) * 255), jsRound ((xv + mv) * 255), jsRound ((0 + mv) * 255)) := by
  simp only [hslChannels]
  rw [if_pos hh]
  dsimp only
  rw [hc, hx, hm]

theorem hslChannels_sector1 {h s l : ℚ} (cv xv mv : ℚ)
    (hh : 60 ≤ h ∧ h < 120)
    (hc : (1 - |2 * (l / 100) - 1|) * (s / 100) = cv)
    (hx : cv * (1 - |jsMod (h / 60) 2 - 1|) = xv)
    (hm : l / 100 - cv / 2 = mv) :
    hslChannels h s l =
      (jsRound ((xv + mv) * 255), jsRound ((cv + mv) * 255), jsRound ((0 + mv) * 255)) := by
  simp only [hslChannels]
  rw [if_neg (by rintro ⟨h1, h2⟩; linarith [hh.1]), if_pos hh]
  dsimp only
  rw [hc, hx, hm]

theorem hslChannels_sector2 {h s l : ℚ} (cv xv mv : ℚ)
    (hh : 120 ≤ h ∧ h < 180)
    (hc : (1 - |2 * (l / 100) - 1|) * (s / 100) = cv)
    (hx : cv * (1 - |jsMod (h / 60) 2 - 1|) = xv)
    (hm : l / 100 - cv / 2 = mv) :
    hslChannels h s l =
      (jsRound ((0 + mv) * 255), jsRound ((cv + mv) * 255), jsRound ((xv + mv) * 255)) := by
  simp only [hslChannels]
  rw [if_neg (by rintro ⟨h1, h2⟩; linarith [hh.1]),
    if_neg (by rintro ⟨h1, h2⟩; linarith [hh.1]), if_pos hh]
  dsimp only
  rw [hc, hx, hm]

theorem hslChannels_sector3 {h s l : ℚ} (cv xv mv : ℚ)
    (hh : 180 ≤ h ∧ h < 240)
    (hc : (1 - |2 * (l / 100) - 1|) * (s / 100) = cv)
    (hx : cv * (1 - |jsMod (h / 60) 2 - 1|) = xv)
    (hm : l / 100 - cv / 2 = mv) :
    hslChannels h s l =
      (jsRound ((0 + mv) * 255), jsRound ((xv + mv) * 255), jsRound ((cv + mv) * 255)) := by
  simp only [hslChannels]
  rw [if_neg (by rintro ⟨h1, h2⟩; linarith [hh.1]),
    if_neg (by rintro ⟨h1, h2⟩; linarith [hh.1]),
    if_neg (by rintro ⟨h1, h2⟩; linarith [hh.1]), if_pos hh]
  dsimp only
  rw [hc, hx, hm]

theorem hslChannels_sector4 {h s l : ℚ} (cv xv mv : ℚ)
    (hh : 240 ≤ h ∧ h < 300)
    (hc : (1 - |2 * (l / 100) - 1|) * (s / 100) = cv)
    (hx : cv * (1 - |jsMod (h / 60) 2 - 1|) = xv)
    (hm : l / 100 - cv / 2 = mv) :
    hslChannels h s l =
      (jsRound ((xv + mv) * 255), jsRound ((0 + mv) * 255), jsRound ((cv + mv) * 255)) := by
  simp only [hslChannels]
  rw [if_neg (by rintro ⟨h1, h2⟩; linarith [hh.1]),
    if_neg (by rintro ⟨h1, h2⟩; linarith [hh.1]),
    if_neg (by rintro ⟨h1, h2⟩; linarith [hh.1]),
    if_neg (by rintro ⟨h1, h2⟩; linarith [hh.1]), if_pos hh]
  dsimp only
  rw [hc, hx, hm]

theorem hslChannels_sector5 {h s l : ℚ} (cv xv mv : ℚ)
    (hh : 300 ≤ h ∧ h < 360)
    (hc : (1 - |2 * (l / 100) - 1|) * (s / 100) = cv)
    (hx : cv * (1 - |jsMod (h / 60) 2 - 1|) = xv)
    (hm : l / 100 - cv / 2 = mv) :
    hslChannels h s l =
      (jsRound ((cv + mv) * 255), jsRound ((0 + mv) * 255), jsRound ((xv + mv) * 255)) := by
  simp only [hslChannels]
  rw [if_neg (by rintro ⟨h1, h2⟩; linarith [hh.1]),
    if_neg (by rintro ⟨h1, h2⟩; linarith [hh.1]),
    if_neg (by rintro ⟨h1, h2⟩; linarith [hh.1]),
    if_neg (by rintro ⟨h1, h2⟩; linarith [hh.1]),
    if_neg (by rintro ⟨h1, h2⟩; linarith [hh.1]), if_pos hh]
  dsimp only
  rw [hc, hx, hm]

theorem hslChannels_fallthrough {h s l : ℚ} (cv mv : ℚ)
    (hh : h < 0 ∨ 360 ≤ h)
    (hc : (1 - |2 * (l / 100) - 1|) * (s / 100) = cv)
    (hm : l / 100 - cv / 2 = mv) :
    hslChannels h s l =
      (jsRound ((0 + mv) * 255), jsRound ((0 + mv) * 255), jsRound ((0 + mv) * 255)) := by
  simp only [hslChannels]
  rw [if_neg (by rintro ⟨h1, h2⟩; rcases hh with h3 | h3 <;> linarith),
    if_neg (by rintro ⟨h1, h2⟩; rcases hh with h3 | h3 <;> linarith),
    if_neg (by rintro ⟨h1, h2⟩; rcases hh with h3 | h3 <;> linarith),
    if_neg (by rintro ⟨h1, h2⟩; rcases hh with h3 | h3 <;> linarith),
    if_neg (by rintro ⟨h1, h2⟩; rcases hh with h3 | h3 <;> linarith),
    if_neg (by rintro ⟨h1, h2⟩; rcases hh with h3 | h3 <;> linarith)]
  dsimp only
  rw [hc, hm]

/-! ### The chroma recovered by `hslToHex` equals the delta of `hexToHsl` -/

theorem c_eq (M m0 : ℚ) (h0 : 0 ≤ m0) (hlt : m0 < M) (h1 : M ≤ 1) :
    (1 - |2 * ((M + m0) / 2) - 1|) *
      (if (M + m0) / 2 > 0.5 then (M - m0) / (2 - M - m0) else (M - m0) / (M + m0)) =
      M - m0 := by
  have hm1 : m0 < 1 := lt_of_lt_of_le hlt h1
  have he : 2 * ((M + m0) / 2) - 1 = M + m0 - 1 := by ring
  by_cases hl : (M + m0) / 2 > 0.5
  · have hgt : 1 < M + m0 := by rw [gt_iff_lt, show (0.5 : ℚ) = 1 / 2 from by norm_num] at hl; linarith
    rw [if_pos hl, he, abs_of_nonneg (by linarith)]
    have hne : 2 - M - m0 ≠ 0 := by intro hz; linarith
    field_simp
    ring
  · have hpos : 0 < M + m0 := by linarith
    rw [if_neg hl, he, abs_of_nonpos (by rw [gt_iff_lt, show (0.5 : ℚ) = 1 / 2 from by norm_num] at hl; push_neg at hl; linarith)]
    have hne : M + m0 ≠ 0 := ne_of_gt hpos
    field_simp

/-! ### The HSL round trip recovers the channels exactly -/

theorem hsl_roundtrip_exact (r g b : ℚ) (hr0 : 0 ≤ r) (hr1 : r ≤ 1) (hg0 : 0 ≤ g)
    (hg1 : g ≤ 1) (hb0 : 0 ≤ b) (hb1 : b ≤ 1) :
    hslChannels (hslCore r g b).1 (hslCore r g b).2.1 (hslCore r g b).2.2 =
      (jsRound (r * 255), jsRound (g * 255), jsRound (b * 255)) := by
  have hMr : r ≤ max r (max g b) := le_max_left _ _
  have hMg : g ≤ max r (max g b) := le_trans (le_max_left _ _) (le_max_right _ _)
  have hMb : b ≤ max r (max g b) := le_trans (le_max_right _ _) (le_max_right _ _)
  have hmr : min r (min g b) ≤ r := min_le_left _ _
  have hmg : min r (min g b) ≤ g := le_trans (min_le_right _ _) (min_le_left _ _)
  have hmb : min r (min g b) ≤ b := le_trans (min_le_right _ _) (min_le_right _ _)
  have hm00 : 0 ≤ min r (min g b) := le_min hr0 (le_min hg0 hb0)
  have hM1 : max r (max g b) ≤ 1 := max_le hr1 (max_le hg1 hb1)
  by_cases hEq : max r (max g b) = min r (min g b)
  · -- achromatic: all three channels are equal
    rw [hEq] at hMr hMg hMb
    have heg : g = r := (le_antisymm hMg hmg).trans (le_antisymm hMr hmr).symm
    have heb : b = r := (le_antisymm hMb hmb).trans (le_antisymm hMr hmr).symm
    rw [heg, heb]
    have hcore : hslCore r r r = (0, 0, (r + r) / 2 * 100) := by
      simp [hslCore]
    rw [hcore]
    have heval := @hslChannels_sector0 0 0 ((r + r) / 2 * 100) 0 0 r
      ⟨le_refl 0, by norm_num⟩ (by norm_num) (by ring) (by ring)
    rw [heval, zero_add]
  · -- chromatic
    have hlt : min r (min g b) < max r (max g b) :=
      lt_of_le_of_ne (le_trans hmr hMr) (fun hcc => hEq hcc.symm)
    simp only [hslCore, if_neg hEq]
    by_cases hMr' : max r (max g b) = r
    · rw [if_pos hMr']
      by_cases hgb : g < b
      · -- max = r, g < b:  hue in [300, 360), sector 5
        rw [if_pos hgb]
        have hgr : g ≤ r := by rw [hMr'] at hMg; exact hMg
        have hbr : b ≤ r := by rw [hMr'] at hMb; exact hMb
        have hmin : min r (min g b) = g := by
          rw [min_eq_left hgb.le, min_eq_right hgr]
        rw [hMr', hmin]
        have hgr' : g < r := by rw [hMr', hmin] at hlt; exact hlt
        have hd : (0 : ℚ) < r - g := by linarith
        have hdne : r - g ≠ 0 := ne_of_gt hd
        have hq1 : -1 ≤ (g - b) / (r - g) := by rw [le_div_iff₀ hd]; linarith
        have hq2 : (g - b) / (r - g) < 0 := div_neg_of_neg_of_pos (by linarith) hd
        have hc : (1 - |2 * ((r + g) / 2 * 100 / 100) - 1|) *
            ((if (r + g) / 2 > 0.5 then (r - g) / (2 - r - g) else (r - g) / (r + g)) *
              100 / 100) = r - g := by
          rw [show (r + g) / 2 * 100 / 100 = (r + g) / 2 from by ring,
            show ((if (r + g) / 2 > 0.5 then (r - g) / (2 - r - g) else (r - g) / (r + g)) *
              100 / 100) = (if (r + g) / 2 > 0.5 then (r - g) / (2 - r - g)
                else (r - g) / (r + g)) from by ring]
          exact c_eq r g hg0 hgr' hr1
        have hx : (r - g) * (1 - |jsMod (((g - b) / (r - g) + 6) * 60 / 60) 2 - 1|) =
            b - g := by
          rw [show ((g - b) / (r - g) + 6) * 60 / 60 = (g - b) / (r - g) + 6 from by ring,
            jsMod_two 2 (by norm_num) (by push_cast; linarith) (by push_cast; linarith)]
          push_cast
          rw [show (g - b) / (r - g) + 6 - 2 * 2 - 1 = (g - b) / (r - g) + 1 from by ring,
            abs_of_nonneg (by linarith)]
          field_simp
        have hm' : (r + g) / 2 * 100 / 100 - (r - g) / 2 = g := by ring
        have heval := hslChannels_sector5 (r - g) (b - g) g
          ⟨by linarith, by linarith⟩ hc hx hm'
        rw [heval, show r - g + g = r from by ring, show b - g + g = b from by ring, zero_add]
      · -- max = r, b ≤ g:  hue in [0, 60], sectors 0 and 1
        rw [if_neg hgb]
        push_neg at hgb
        have hgr : g ≤ r := by rw [hMr'] at hMg; exact hMg
        have hmin : min r (min g b) = b := by
          rw [min_eq_right hgb, min_eq_right (le_trans hgb hgr)]
        rw [hMr', hmin]
        have hbr' : b < r := by rw [hMr', hmin] at hlt; exact hlt
        have hd : (0 : ℚ) < r - b := by linarith
        have hdne : r - b ≠ 0 := ne_of_gt hd
        have hq0 : 0 ≤ (g - b) / (r - b) := div_nonneg (by linarith) hd.le
        have hq1 : (g - b) / (r - b) ≤ 1 := (div_le_one hd).mpr (by linarith)
        have hc : (1 - |2 * ((r + b) / 2 * 100 / 100) - 1|) *
            ((if (r + b) / 2 > 0.5 then (r - b) / (2 - r - b) else (r - b) / (r + b)) *
              100 / 100) = r - b := by
          rw [show (r + b) / 2 * 100 / 100 = (r + b) / 2 from by ring,
            show ((if (r + b) / 2 > 0.5 then (r - b) / (2 - r - b) else (r - b) / (r + b)) *
              100 / 100) = (if (r + b) / 2 > 0.5 then (r - b) / (2 - r - b)
                else (r - b) / (r + b)) from by ring]
          exact c_eq r b hb0 hbr' hr1
        have hm' : (r + b) / 2 * 100 / 100 - (r - b) / 2 = b := by ring
        by_cases hgr2 : g = r
        · -- g = r: hue is exactly 60, sector 1
          have hq : (g - b) / (r - b) = 1 := by rw [hgr2]; exact div_self hdne
          have hx : (r - b) * (1 - |jsMod (((g - b) / (r - b) + 0) * 60 / 60) 2 - 1|) =
              r - b := by
            rw [show ((g - b) / (r - b) + 0) * 60 / 60 = (g - b) / (r - b) from by ring, hq,
              jsMod_two 0 (by norm_num) (by push_cast; linarith) (by push_cast; linarith)]
            push_cast
            norm_num
          have heval := hslChannels_sector1 (r - b) (r - b) b
            ⟨by rw [hq]; norm_num, by rw [hq]; norm_num⟩ hc hx hm'
          rw [heval, show r - b + b = r from by ring, zero_add]
          rw [hgr2]
        · -- g < r: hue in [0, 60), sector 0
          have hgr' : g < r := lt_of_le_of_ne hgr hgr2
          have hqlt : (g - b) / (r - b) < 1 := (div_lt_one hd).mpr (by linarith)
          have hx : (r - b) * (1 - |jsMod (((g - b) / (r - b) + 0) * 60 / 60) 2 - 1|) =
              g - b := by
            rw [show ((g - b) / (r - b) + 0) * 60 / 60 = (g - b) / (r - b) from by ring,
              jsMod_two 0 (by norm_num) (by push_cast; linarith) (by push_cast; linarith)]
            push_cast
            rw [show (g - b) / (r - b) - 2 * 0 - 1 = (g - b) / (r - b) - 1 from by ring,
              abs_of_nonpos (by linarith)]
            field_simp
          have heval := hslChannels_sector0 (r - b) (g - b) b
            ⟨by positivity, by nlinarith⟩ hc hx hm'
          rw [heval, show r - b + b = r from by ring, show g - b + b = g from by ring,
            zero_add]
    · rw [if_neg hMr']
      by_cases hMg' : max r (max g b) = g
      · -- max = g
        rw [if_pos hMg']
        have hrg : r < g := by
          have := lt_of_le_of_ne hMr (fun hcc => hMr' hcc.symm)
          rw [hMg'] at this; exact this
        have hbg : b ≤ g := by rw [hMg'] at hMb; exact hMb
        have hminb : min g b = b := min_eq_right hbg
        by_cases hrb : r ≤ b
        · -- min = r: hue in [120, 180], sectors 2 and 3
          have hmin : min r (min g b) = r := by rw [hminb, min_eq_left hrb]
          rw [hMg', hmin]
          have hd : (0 : ℚ) < g - r := by linarith
          have hdne : g - r ≠ 0 := ne_of_gt hd
          have hq0 : 0 ≤ (b - r) / (g - r) := div_nonneg (by linarith) hd.le
          have hq1 : (b - r) / (g - r) ≤ 1 := (div_le_one hd).mpr (by linarith)
          have hc : (1 - |2 * ((g + r) / 2 * 100 / 100) - 1|) *
              ((if (g + r) / 2 > 0.5 then (g - r) / (2 - g - r) else (g - r) / (g + r)) *
                100 / 100) = g - r := by
            rw [show (g + r) / 2 * 100 / 100 = (g + r) / 2 from by ring,
              show ((if (g + r) / 2 > 0.5 then (g - r) / (2 - g - r) else (g - r) / (g + r)) *
                100 / 100) = (if (g + r) / 2 > 0.5 then (g - r) / (2 - g - r)
                  else (g - r) / (g + r)) from by ring]
            exact c_eq g r hr0 hrg hg1
          have hm' : (g + r) / 2 * 100 / 100 - (g - r) / 2 = r := by ring
          by_cases hbg2 : b = g
          · -- b = g: hue is exactly 180, sector 3
            have hq : (b - r) / (g - r) = 1 := by rw [hbg2]; exact div_self hdne
            have hx : (g - r) * (1 - |jsMod (((b - r) / (g - r) + 2) * 60 / 60) 2 - 1|) =
                g - r := by
              rw [show ((b - r) / (g - r) + 2) * 60 / 60 = (b - r) / (g - r) + 2 from by ring,
                hq, jsMod_two 1 (by norm_num) (by push_cast; linarith)
                  (by push_cast; linarith)]
              push_cast
              norm_num
            have heval := hslChannels_sector3 (g - r) (g - r) r
              ⟨by rw [hq]; norm_num, by rw [hq]; norm_num⟩ hc hx hm'
            rw [heval, show g - r + r = g from by ring, zero_add, hbg2]
          · -- b < g: hue in [120, 180), sector 2
            have hblt : b < g := lt_of_le_of_ne hbg hbg2
            have hqlt : (b - r) / (g - r) < 1 := (div_lt_one hd).mpr (by linarith)
            have hx : (g - r) * (1 - |jsMod (((b - r) / (g - r) + 2) * 60 / 60) 2 - 1|) =
                b - r := by
              rw [show ((b - r) / (g - r) + 2) * 60 / 60 = (b - r) / (g - r) + 2 from by ring,
                jsMod_two 1 (by norm_num) (by push_cast; linarith)
                  (by push_cast; linarith)]
              push_cast
              rw [show (b - r) / (g - r) + 2 - 2 * 1 - 1 = (b - r) / (g - r) - 1 from by ring,
                abs_of_nonpos (by linarith)]
              field_simp
            have heval := hslChannels_sector2 (g - r) (b - r) r
              ⟨by linarith, by linarith⟩ hc hx hm'
            rw [heval, show g - r + r = g from by ring, show b - r + r = b from by ring,
              zero_add]
        · -- min = b: hue in (60, 120), sector 1
          push_neg at hrb
          have hmin : min r (min g b) = b := by rw [hminb, min_eq_right hrb.le]
          rw [hMg', hmin]
          have hd : (0 : ℚ) < g - b := by linarith
          have hdne : g - b ≠ 0 := ne_of_gt hd
          have hqlt : (b - r) / (g - b) < 0 := div_neg_of_neg_of_pos (by linarith) hd
          have hqgt : -1 < (b - r) / (g - b) := by rw [lt_div_iff₀ hd]; linarith
          have hc : (1 - |2 * ((g + b) / 2 * 100 / 100) - 1|) *
              ((if (g + b) / 2 > 0.5 then (g - b) / (2 - g - b) else (g - b) / (g + b)) *
                100 / 100) = g - b := by
            rw [show (g + b) / 2 * 100 / 100 = (g + b) / 2 from by ring,
              show ((if (g + b) / 2 > 0.5 then (g - b) / (2 - g - b) else (g - b) / (g + b)) *
                100 / 100) = (if (g + b) / 2 > 0.5 then (g - b) / (2 - g - b)
                  else (g - b) / (g + b)) from by ring]
            exact c_eq g b hb0 (by rw [hMg', hmin] at hlt; exact hlt) hg1
          have hm' : (g + b) / 2 * 100 / 100 - (g - b) / 2 = b := by ring
          have hx : (g - b) * (1 - |jsMod (((b - r) / (g - b) + 2) * 60 / 60) 2 - 1|) =
              r - b := by
            rw [show ((b - r) / (g - b) + 2) * 60 / 60 = (b - r) / (g - b) + 2 from by ring,
              jsMod_two 0 (by norm_num) (by push_cast; linarith) (by push_cast; linarith)]
            push_cast
            rw [show (b - r) / (g - b) + 2 - 2 * 0 - 1 = (b - r) / (g - b) + 1 from by ring,
              abs_of_nonneg (by linarith)]
            field_simp
          have heval := hslChannels_sector1 (g - b) (r - b) b
            ⟨by linarith, by linarith⟩ hc hx hm'
          rw [heval, show g - b + b = g from by ring, show r - b + b = r from by ring,
            zero_add]
      · -- max = b
        rw [if_neg hMg']
        have hMb' : max r (max g b) = b := by
          rcases max_choice r (max g b) with hcc | hcc
          · exact absurd hcc hMr'
          · rcases max_choice g b with hdd | hdd
            · exact absurd (hcc.trans hdd) hMg'
            · exact hcc.trans hdd
        rw [hMb']
        have hrb : r < b := by
          have := lt_of_le_of_ne hMr (fun hcc => hMr' hcc.symm)
          rw [hMb'] at this; exact this
        have hgb2 : g < b := by
          have := lt_of_le_of_ne hMg (fun hcc => hMg' hcc.symm)
          rw [hMb'] at this; exact this
        have hming : min g b = g := min_eq_left hgb2.le
        by_cases hgr : g ≤ r
        · -- min = g: hue in [240, 300), sector 4
          have hmin : min r (min g b) = g := by rw [hming, min_eq_right hgr]
          rw [hmin]
          have hd : (0 : ℚ) < b - g := by linarith
          have hdne : b - g ≠ 0 := ne_of_gt hd
          have hq0 : 0 ≤ (r - g) / (b - g) := div_nonneg (by linarith) hd.le
          have hqlt : (r - g) / (b - g) < 1 := (div_lt_one hd).mpr (by linarith)
          have hc : (1 - |2 * ((b + g) / 2 * 100 / 100) - 1|) *
              ((if (b + g) / 2 > 0.5 then (b - g) / (2 - b - g) else (b - g) / (b + g)) *
                100 / 100) = b - g := by
            rw [show (b + g) / 2 * 100 / 100 = (b + g) / 2 from by ring,
              show ((if (b + g) / 2 > 0.5 then (b - g) / (2 - b - g) else (b - g) / (b + g)) *
                100 / 100) = (if (b + g) / 2 > 0.5 then (b - g) / (2 - b - g)
                  else (b - g) / (b + g)) from by ring]
            exact c_eq b g hg0 hgb2 hb1
          have hm' : (b + g) / 2 * 100 / 100 - (b - g) / 2 = g := by ring
          have hx : (b - g) * (1 - |jsMod (((r - g) / (b - g) + 4) * 60 / 60) 2 - 1|) =
              r - g := by
            rw [show ((r - g) / (b - g) + 4) * 60 / 60 = (r - g) / (b - g) + 4 from by ring,
              jsMod_two 2 (by norm_num) (by push_cast; linarith) (by push_cast; linarith)]
            push_cast
            rw [show (r - g) / (b - g) + 4 - 2 * 2 - 1 = (r - g) / (b - g) - 1 from by ring,
              abs_of_nonpos (by linarith)]
            field_simp
          have heval := hslChannels_sector4 (b - g) (r - g) g
            ⟨by linarith, by linarith⟩ hc hx hm'
          rw [heval, show b - g + g = b from by ring, show r - g + g = r from by ring,
            zero_add]
        · -- min = r: hue in (180, 240), sector 3
          push_neg at hgr
          have hmin : min r (min g b) = r := by rw [hming, min_eq_left hgr.le]
          rw [hmin]
          have hd : (0 : ℚ) < b - r := by linarith
          have hdne : b - r ≠ 0 := ne_of_gt hd
          have hqlt : (r - g) / (b - r) < 0 := div_neg_of_neg_of_pos (by linarith) hd
          have hqgt : -1 < (r - g) / (b - r) := by rw [lt_div_iff₀ hd]; linarith
          have hc : (1 - |2 * ((b + r) / 2 * 100 / 100) - 1|) *
              ((if (b + r) / 2 > 0.5 then (b - r) / (2 - b - r) else (b - r) / (b + r)) *
                100 / 100) = b - r := by
            rw [show (b + r) / 2 * 100 / 100 = (b + r) / 2 from by ring,
              show ((if (b + r) / 2 > 0.5 then (b - r) / (2 - b - r) else (b - r) / (b + r)) *
                100 / 100) = (if (b + r) / 2 > 0.5 then (b - r) / (2 - b - r)
                  else (b - r) / (b + r)) from by ring]
            exact c_eq b r hr0 hrb hb1
          have hm' : (b + r) / 2 * 100 / 100 - (b - r) / 2 = r := by ring
          have hx : (b - r) * (1 - |jsMod (((r - g) / (b - r) + 4) * 60 / 60) 2 - 1|) =
              g - r := by
            rw [show ((r - g) / (b - r) + 4) * 60 / 60 = (r - g) / (b - r) + 4 from by ring,
              jsMod_two 1 (by norm_num) (by push_cast; linarith) (by push_cast; linarith)]
            push_cast
            rw [show (r - g) / (b - r) + 4 - 2 * 1 - 1 = (r - g) / (b - r) + 1 from by ring,
              abs_of_nonneg (by linarith)]
            field_simp
          have heval := hslChannels_sector3 (b - r) (g - r) r
            ⟨by linarith, by linarith⟩ hc hx hm'
          rw [heval, show b - r + r = b from by ring, show g - r + r = g from by ring,
            zero_add]

/-! ### Range of the HSL triple produced by `hexToHsl` -/

theorem hslCore_bounds (r g b : ℚ) (hr0 : 0 ≤ r) (hr1 : r ≤ 1) (hg0 : 0 ≤ g)
    (hg1 : g ≤ 1) (hb0 : 0 ≤ b) (hb1 : b ≤ 1) :
    0 ≤ (hslCore r g b).1 ∧ (hslCore r g b).1 < 360 ∧
      0 ≤ (hslCore r g b).2.1 ∧ (hslCore r g b).2.1 ≤ 100 ∧
      0 ≤ (hslCore r g b).2.2 ∧ (hslCore r g b).2.2 ≤ 100 := by
  simp only [hslCore]
  set M := max r (max g b) with hMdef
  set m0 := min r (min g b) with hmdef
  have hMr : r ≤ M := le_max_left _ _
  have hMg : g ≤ M := le_trans (le_max_left _ _) (le_max_right _ _)
  have hMb : b ≤ M := le_trans (le_max_right _ _) (le_max_right _ _)
  have hmr : m0 ≤ r := min_le_left _ _
  have hmg : m0 ≤ g := le_trans (min_le_right _ _) (min_le_left _ _)
  have hmb : m0 ≤ b := le_trans (min_le_right _ _) (min_le_right _ _)
  have hm00 : 0 ≤ m0 := le_min hr0 (le_min hg0 hb0)
  have hM1 : M ≤ 1 := max_le hr1 (max_le hg1 hb1)
  by_cases hEq : M = m0
  · rw [if_pos hEq]
    dsimp only
    refine ⟨le_refl 0, by norm_num, le_refl 0, by norm_num, by linarith, by linarith⟩
  · rw [if_neg hEq]
    dsimp only
    have hlt : m0 < M := lt_of_le_of_ne (le_trans hmr hMr) (fun hcc => hEq hcc.symm)
    have hd : (0 : ℚ) < M - m0 := by linarith
    have hm1 : m0 < 1 := lt_of_lt_of_le hlt hM1
    have hs : 0 ≤ (if (M + m0) / 2 > 0.5 then (M - m0) / (2 - M - m0)
        else (M - m0) / (M + m0)) ∧
        (if (M + m0) / 2 > 0.5 then (M - m0) / (2 - M - m0) else (M - m0) / (M + m0)) ≤ 1 := by
      by_cases hl : (M + m0) / 2 > 0.5
      · rw [if_pos hl]
        have hden : (0 : ℚ) < 2 - M - m0 := by linarith
        exact ⟨div_nonneg hd.le hden.le, (div_le_one hden).mpr (by linarith)⟩
      · rw [if_neg hl]
        have hden : (0 : ℚ) < M + m0 := by linarith
        exact ⟨div_nonneg hd.le hden.le, (div_le_one hden).mpr (by linarith)⟩
    have hh : 0 ≤ (if M = r then (g - b) / (M - m0) + (if g < b then (6 : ℚ) else 0)
        else if M = g then (b - r) / (M - m0) + 2 else (r - g) / (M - m0) + 4) ∧
        (if M = r then (g - b) / (M - m0) + (if g < b then (6 : ℚ) else 0)
        else if M = g then (b - r) / (M - m0) + 2 else (r - g) / (M - m0) + 4) < 6 := by
      by_cases hMr' : M = r
      · rw [if_pos hMr']
        by_cases hgb : g < b
        · rw [if_pos hgb]
          have hq1 : -1 ≤ (g - b) / (M - m0) := by rw [le_div_iff₀ hd]; linarith
          have hq2 : (g - b) / (M - m0) < 0 := div_neg_of_neg_of_pos (by linarith) hd
          exact ⟨by linarith, by linarith⟩
        · rw [if_neg hgb]
          push_neg at hgb
          have hq1 : 0 ≤ (g - b) / (M - m0) := div_nonneg (by linarith) hd.le
          have hq2 : (g - b) / (M - m0) ≤ 1 := (div_le_one hd).mpr (by linarith)
          exact ⟨by linarith, by linarith⟩
      · rw [if_neg hMr']
        by_cases hMg' : M = g
        · rw [if_pos hMg']
          have hq1 : -1 ≤ (b - r) / (M - m0) := by rw [le_div_iff₀ hd]; linarith
          have hq2 : (b - r) / (M - m0) ≤ 1 := (div_le_one hd).mpr (by linarith)
          exact ⟨by linarith, by linarith⟩
        · have hq1 : -1 ≤ (r - g) / (M - m0) := by rw [le_div_iff₀ hd]; linarith
          have hq2 : (r - g) / (M - m0) ≤ 1 := (div_le_one hd).mpr (by linarith)
          rw [if_neg hMg']
          exact ⟨by linarith, by linarith⟩
    refine ⟨by nlinarith [hh.1], by nlinarith [hh.2], by nlinarith [hs.1], by nlinarith [hs.2],
      by linarith, by linarith⟩

/-! ### Range of the rounded channels produced by `hslChannels` -/

set_option maxHeartbeats 1000000 in
theorem hslChannels_bounds (h s l : ℚ) (hs0 : 0 ≤ s) (hs1 : s ≤ 100) (hl0 : 0 ≤ l)
    (hl1 : l ≤ 100) :
    0 ≤ (hslChannels h s l).1 ∧ (hslChannels h s l).1 ≤ 255 ∧
      0 ≤ (hslChannels h s l).2.1 ∧ (hslChannels h s l).2.1 ≤ 255 ∧
      0 ≤ (hslChannels h s l).2.2 ∧ (hslChannels h s l).2.2 ≤ 255 := by
  simp only [hslChannels]
  set S := s / 100 with hSdef
  set L := l / 100 with hLdef
  set C := (1 - |2 * L - 1|) * S with hCdef
  set X := C * (1 - |jsMod (h / 60) 2 - 1|) with hXdef
  set Mv := L - C / 2 with hMvdef
  have hS0 : 0 ≤ S := div_nonneg hs0 (by norm_num)
  have hS1 : S ≤ 1 := by rw [hSdef]; linarith
  have hL0 : 0 ≤ L := div_nonneg hl0 (by norm_num)
  have hL1 : L ≤ 1 := by rw [hLdef]; linarith
  have habs : |2 * L - 1| ≤ 1 := abs_le.mpr ⟨by linarith, by linarith⟩
  have hC0 : 0 ≤ C := mul_nonneg (by linarith) hS0
  have hCle : C ≤ 1 - |2 * L - 1| := by
    rw [hCdef]; exact mul_le_of_le_one_right (by linarith) hS1
  have hCa : C ≤ 2 * L := by have := neg_le_abs (2 * L - 1); linarith
  have hCb : C ≤ 2 - 2 * L := by have := le_abs_self (2 * L - 1); linarith
  have hM0 : 0 ≤ Mv := by rw [hMvdef]; linarith
  have hM1 : Mv ≤ 1 := by rw [hMvdef]; linarith
  have hCM : C + Mv ≤ 1 := by rw [hMvdef]; linarith
  have hX' : 0 ≤ h → 0 ≤ X ∧ X ≤ C := by
    intro hh
    obtain ⟨hj0, hj2⟩ := @jsMod_two_nonneg (h / 60) (by positivity)
    have habs2 : |jsMod (h / 60) 2 - 1| ≤ 1 := abs_le.mpr ⟨by linarith, by linarith⟩
    have habs3 : 0 ≤ |jsMod (h / 60) 2 - 1| := abs_nonneg _
    exact ⟨mul_nonneg hC0 (by linarith), mul_le_of_le_one_right hC0 (by linarith)⟩
  have key : ∀ v : ℚ, 0 ≤ v → v ≤ 1 → 0 ≤ jsRound (v * 255) ∧ jsRound (v * 255) ≤ 255 := by
    intro v hv0 hv1
    exact ⟨jsRound_nonneg (by nlinarith), jsRound_le_255 (by nlinarith)⟩
  have keyC := key (C + Mv) (by linarith) (by linarith)
  have keyM := key (0 + Mv) (by linarith) (by linarith)
  split_ifs with h1 h2 h3 h4 h5 h6
  · obtain ⟨hx0, hxC⟩ := hX' h1.1
    have keyX := key (X + Mv) (by linarith) (by linarith)
    exact ⟨keyC.1, keyC.2, keyX.1, keyX.2, keyM.1, keyM.2⟩
  · obtain ⟨hx0, hxC⟩ := hX' (by linarith [h2.1])
    have keyX := key (X + Mv) (by linarith) (by linarith)
    exact ⟨keyX.1, keyX.2, keyC.1, keyC.2, keyM.1, keyM.2⟩
  · obtain ⟨hx0, hxC⟩ := hX' (by linarith [h3.1])
    have keyX := key (X + Mv) (by linarith) (by linarith)
    exact ⟨keyM.1, keyM.2, keyC.1, keyC.2, keyX.1, keyX.2⟩
  · obtain ⟨hx0, hxC⟩ := hX' (by linarith [h4.1])
    have keyX := key (X + Mv) (by linarith) (by linarith)
    exact ⟨keyM.1, keyM.2, keyX.1, keyX.2, keyC.1, keyC.2⟩
  · obtain ⟨hx0, hxC⟩ := hX' (by linarith [h5.1])
    have keyX := key (X + Mv) (by linarith) (by linarith)
    exact ⟨keyX.1, keyX.2, keyM.1, keyM.2, keyC.1, keyC.2⟩
  · obtain ⟨hx0, hxC⟩ := hX' (by linarith [h6.1])
    have keyX := key (X + Mv) (by linarith) (by linarith)
    exact ⟨keyC.1, keyC.2, keyM.1, keyM.2, keyX.1, keyX.2⟩
  · exact ⟨keyM.1, keyM.2, keyM.1, keyM.2, keyM.1, keyM.2⟩

/-! ### Characterization of the hex rendering for 8-bit channels -/

theorem toInt32_eq_self {n : ℤ} (h0 : 0 ≤ n) (h1 : n < 2147483648) : toInt32 n = n := by
  unfold toInt32
  split <;> omega

theorem natToHexAux_ne {n : ℕ} (acc : List Char) (h : n ≠ 0) :
    natToHexAux n acc = natToHexAux (n / 16) (hexDigitChar (n % 16) :: acc) := by
  rw [natToHexAux]
  exact dif_neg h

theorem natToHexAux_zero (acc : List Char) : natToHexAux 0 acc = acc := by
  rw [natToHexAux]
  exact dif_pos rfl

theorem natToHex_channels {r g b : ℕ} (hr : r ≤ 255) (hg : g ≤ 255) (hb : b ≤ 255) :
    natToHex (16777216 + r * 65536 + g * 256 + b) =
      ['1', hexDigitChar (r / 16), hexDigitChar (r % 16), hexDigitChar (g / 16),
        hexDigitChar (g % 16), hexDigitChar (b / 16), hexDigitChar (b % 16)] := by
  have e0 : (16777216 + r * 65536 + g * 256 + b) % 16 = b % 16 := by omega
  have e1 : (16777216 + r * 65536 + g * 256 + b) / 16 =
      1048576 + r * 4096 + g * 16 + b / 16 := by omega
  have e2 : (1048576 + r * 4096 + g * 16 + b / 16) % 16 = b / 16 := by omega
  have e3 : (1048576 + r * 4096 + g * 16 + b / 16) / 16 = 65536 + r * 256 + g := by omega
  have e4 : (65536 + r * 256 + g) % 16 = g % 16 := by omega
  have e5 : (65536 + r * 256 + g) / 16 = 4096 + r * 16 + g / 16 := by omega
  have e6 : (4096 + r * 16 + g / 16) % 16 = g / 16 := by omega
  have e7 : (4096 + r * 16 + g / 16) / 16 = 256 + r := by omega
  have e8 : (256 + r) % 16 = r % 16 := by omega
  have e9 : (256 + r) / 16 = 16 + r / 16 := by omega
  have e10 : (16 + r / 16) % 16 = r / 16 := by omega
  have e11 : (16 + r / 16) / 16 = 1 := by omega
  rw [natToHex, if_neg (by omega),
    natToHexAux_ne _ (by omega), e0, e1,
    natToHexAux_ne _ (by omega), e2, e3,
    natToHexAux_ne _ (by omega), e4, e5,
    natToHexAux_ne _ (by omega), e6, e7,
    natToHexAux_ne _ (by omega), e8, e9,
    natToHexAux_ne _ (by omega), e10, e11,
    natToHexAux_ne _ (by omega)]
  norm_num
  rw [natToHexAux_zero]
  rfl

theorem renderHex_eq {r g b : ℤ} (hr0 : 0 ≤ r) (hr1 : r ≤ 255) (hg0 : 0 ≤ g) (hg1 : g ≤ 255)
    (hb0 : 0 ≤ b) (hb1 : b ≤ 255) :
    renderHex r g b = String.mk ['#',
      Char.toUpper (hexDigitChar (r.toNat / 16)), Char.toUpper (hexDigitChar (r.toNat % 16)),
      Char.toUpper (hexDigitChar (g.toNat / 16)), Char.toUpper (hexDigitChar (g.toNat % 16)),
      Char.toUpper (hexDigitChar (b.toNat / 16)), Char.toUpper (hexDigitChar (b.toNat % 16))] := by
  have h1 : jsShl 1 24 = 16777216 := by
    rw [jsShl]; exact toInt32_eq_self (by norm_num) (by norm_num)
  have h2 : jsShl r 16 = r * 65536 := by
    rw [jsShl]; exact toInt32_eq_self (by positivity) (by nlinarith)
  have h3 : jsShl g 8 = g * 256 := by
    rw [jsShl]; exact toInt32_eq_self (by positivity) (by nlinarith)
  rw [renderHex, h1, h2, h3]
  have hsum : (16777216 + r * 65536 + g * 256 + b) =
      ((16777216 + r.toNat * 65536 + g.toNat * 256 + b.toNat : ℕ) : ℤ) := by
    push_cast
    omega
  rw [hsum, intToString16, if_neg (not_lt.mpr (Int.natCast_nonneg _)), Int.toNat_natCast,
    natToHex_channels (by omega) (by omega) (by omega)]
  rfl

/-! ### Parsing facts -/

theorem hexDigit_not_space {c : Char} (h : isHexDigit c = true) : isJsSpace c = false := by
  simp only [isHexDigit, decide_eq_true_eq] at h
  simp only [isJsSpace, decide_eq_false_iff_not]
  rcases h with h | h | h <;> omega

theorem hexDigit_ne_chars {c : Char} (h : isHexDigit c = true) :
    c ≠ '-' ∧ c ≠ '+' ∧ c ≠ 'x' ∧ c ≠ 'X' := by
  refine ⟨?_, ?_, ?_, ?_⟩ <;> rintro rfl <;> exact absurd h (by decide)

theorem hexVal_le_15 (c : Char) : hexVal c ≤ 15 := by
  unfold hexVal
  split_ifs <;> omega

theorem parseIntHex_pair {a b : Char} (ha : isHexDigit a = true) (hb : isHexDigit b = true) :
    parseIntHex [a, b] = some ((16 * hexVal a + hexVal b : ℕ) : ℤ) := by
  have hsp := hexDigit_not_space ha
  obtain ⟨ham, hap, hax, haX⟩ := hexDigit_ne_chars ha
  obtain ⟨hbm, hbp, hbx, hbX⟩ := hexDigit_ne_chars hb
  simp [parseIntHex, hexDigitsVal, List.dropWhile_cons, hsp, ham, hap, hax, haX, hbx, hbX,
    ha, hb]

theorem list_len_three {α : Type} (l : List α) (hl : l.length = 3) :
    ∃ a b c, l = [a, b, c] := by
  rcases l with _ | ⟨a, l⟩
  · simp at hl
  rcases l with _ | ⟨b, l⟩
  · simp at hl
  rcases l with _ | ⟨c, l⟩
  · simp at hl
  rcases l with _ | ⟨d, l⟩
  · exact ⟨a, b, c, rfl⟩
  · simp only [List.length_cons] at hl
    omega

theorem list_len_six {α : Type} (l : List α) (hl : l.length = 6) :
    ∃ a b c d e f, l = [a, b, c, d, e, f] := by
  rcases l with _ | ⟨a, l⟩
  · simp at hl
  rcases l with _ | ⟨b, l⟩
  · simp at hl
  rcases l with _ | ⟨c, l⟩
  · simp at hl
  rcases l with _ | ⟨d, l⟩
  · simp at hl
  rcases l with _ | ⟨e, l⟩
  · simp at hl
  rcases l with _ | ⟨f, l⟩
  · simp at hl
  rcases l with _ | ⟨g, l⟩
  · exact ⟨a, b, c, d, e, f, rfl⟩
  · simp only [List.length_cons] at hl
    omega

theorem hexToHslL_three {a b c : Char} (ha : isHexDigit a = true) (hb : isHexDigit b = true)
    (hc : isHexDigit c = true) :
    hexToHslL [a, b, c] =
      .ok (some (hslCore (((16 * hexVal a + hexVal a : ℕ) : ℚ) / 255)
        (((16 * hexVal b + hexVal b : ℕ) : ℚ) / 255)
        (((16 * hexVal c + hexVal c : ℕ) : ℚ) / 255))) := by
  rw [hexToHslL, if_pos (by simp)]
  simp only [List.getD, List.get?, Option.getD]
  rw [parseIntHex_pair ha ha, parseIntHex_pair hb hb, parseIntHex_pair hc hc]
  push_cast
  simp

theorem hexToHslL_six {c0 c1 c2 c3 c4 c5 : Char} (h0 : isHexDigit c0 = true)
    (h1 : isHexDigit c1 = true) (h2 : isHexDigit c2 = true) (h3 : isHexDigit c3 = true)
    (h4 : isHexDigit c4 = true) (h5 : isHexDigit c5 = true) :
    hexToHslL [c0, c1, c2, c3, c4, c5] =
      .ok (some (hslCore (((16 * hexVal c0 + hexVal c1 : ℕ) : ℚ) / 255)
        (((16 * hexVal c2 + hexVal c3 : ℕ) : ℚ) / 255)
        (((16 * hexVal c4 + hexVal c5 : ℕ) : ℚ) / 255))) := by
  rw [hexToHslL, if_neg (by simp), if_pos (by simp)]
  simp only [List.take, List.drop]
  rw [parseIntHex_pair h0 h1, parseIntHex_pair h2 h3, parseIntHex_pair h4 h5]
  push_cast
  simp

theorem hexToHslL_ok_iff (ds : List Char) :
    (∃ v, hexToHslL ds = .ok v) ↔ (ds.length = 3 ∨ ds.length = 6) := by
  constructor
  · rintro ⟨v, hv⟩
    by_contra hno
    push_neg at hno
    rw [hexToHslL, if_neg hno.1, if_neg hno.2] at hv
    exact absurd hv (by simp)
  · rintro (h3 | h6)
    · rw [hexToHslL, if_pos h3]
      exact ⟨_, rfl⟩
    · rw [hexToHslL, if_neg (by omega), if_pos h6]
      exact ⟨_, rfl⟩

/-! ### Bounds of the triple computed from a valid hex string -/

theorem channel_le_255 (a b : Char) : (16 * hexVal a + hexVal b : ℕ) ≤ 255 := by
  have h1 := hexVal_le_15 a
  have h2 := hexVal_le_15 b
  omega

theorem channel_q_bounds (n : ℕ) (hn : n ≤ 255) :
    0 ≤ ((n : ℚ) / 255) ∧ ((n : ℚ) / 255) ≤ 1 := by
  refine ⟨by positivity, ?_⟩
  rw [div_le_one (by norm_num)]
  exact_mod_cast hn

theorem hexToHslL_bounds_of_valid (ds : List Char) (h s l : ℚ)
    (hval : ∀ c ∈ ds, isHexDigit c = true)
    (hok : hexToHslL ds = .ok (some (h, s, l))) :
    0 ≤ h ∧ h < 360 ∧ 0 ≤ s ∧ s ≤ 100 ∧ 0 ≤ l ∧ l ≤ 100 := by
  by_cases h3 : ds.length = 3
  · obtain ⟨a, b, c, rfl⟩ := list_len_three ds h3
    have ha := hval a (by simp)
    have hb := hval b (by simp)
    have hc := hval c (by simp)
    rw [hexToHslL_three ha hb hc] at hok
    simp only [Except.ok.injEq, Option.some.injEq] at hok
    obtain ⟨b1, b2⟩ := channel_q_bounds _ (channel_le_255 a a)
    obtain ⟨b3, b4⟩ := channel_q_bounds _ (channel_le_255 b b)
    obtain ⟨b5, b6⟩ := channel_q_bounds _ (channel_le_255 c c)
    have hb' := hslCore_bounds _ _ _ b1 b2 b3 b4 b5 b6
    rw [hok] at hb'
    exact hb'
  · by_cases h6 : ds.length = 6
    · obtain ⟨c0, c1, c2, c3, c4, c5, rfl⟩ := list_len_six ds h6
      have g0 := hval c0 (by simp)
      have g1 := hval c1 (by simp)
      have g2 := hval c2 (by simp)
      have g3 := hval c3 (by simp)
      have g4 := hval c4 (by simp)
      have g5 := hval c5 (by simp)
      rw [hexToHslL_six g0 g1 g2 g3 g4 g5] at hok
      simp only [Except.ok.injEq, Option.some.injEq] at hok
      obtain ⟨b1, b2⟩ := channel_q_bounds _ (channel_le_255 c0 c1)
      obtain ⟨b3, b4⟩ := channel_q_bounds _ (channel_le_255 c2 c3)
      obtain ⟨b5, b6⟩ := channel_q_bounds _ (channel_le_255 c4 c5)
      have hb' := hslCore_bounds _ _ _ b1 b2 b3 b4 b5 b6
      rw [hok] at hb'
      exact hb'
    · rw [hexToHslL, if_neg h3, if_neg h6] at hok
      exact absurd hok (by simp)

/-! ### Decoding the rendered digits -/

theorem upperHexDigit_ok :
    ∀ m : ℕ, m < 16 → isUpperHexDigit (Char.toUpper (hexDigitChar m)) = true := by decide

theorem hexVal_toUpper_digit :
    ∀ m : ℕ, m < 16 → hexVal (Char.toUpper (hexDigitChar m)) = m := by decide

/-! ### Concrete evaluations -/

theorem jsRound_eq {q : ℚ} (n : ℤ) (h1 : (n : ℚ) ≤ q + 1 / 2) (h2 : q + 1 / 2 < n + 1) :
    jsRound q = n := by
  rw [jsRound, Int.floor_eq_iff]
  exact ⟨h1, h2⟩

theorem renderHex_64_149_191 : renderHex 64 149 191 = "#4095BF" := by
  rw [renderHex_eq (by norm_num) (by norm_num) (by norm_num) (by norm_num) (by norm_num)
    (by norm_num)]
  decide

theorem renderHex_255s : renderHex 255 255 255 = "#FFFFFF" := by
  rw [renderHex_eq (by norm_num) (by norm_num) (by norm_num) (by norm_num) (by norm_num)
    (by norm_num)]
  decide

theorem natToHex_15132391 : natToHex 15132391 = ['e', '6', 'e', '6', 'e', '7'] := by
  have s1 := @natToHexAux_ne 15132391 [] (by norm_num)
  norm_num at s1
  have s2 := @natToHexAux_ne 945774 [hexDigitChar 7] (by norm_num)
  norm_num at s2
  have s3 := @natToHexAux_ne 59110 [hexDigitChar 14, hexDigitChar 7] (by norm_num)
  norm_num at s3
  have s4 := @natToHexAux_ne 3694 [hexDigitChar 6, hexDigitChar 14, hexDigitChar 7]
    (by norm_num)
  norm_num at s4
  have s5 := @natToHexAux_ne 230
    [hexDigitChar 14, hexDigitChar 6, hexDigitChar 14, hexDigitChar 7] (by norm_num)
  norm_num at s5
  have s6 := @natToHexAux_ne 14
    [hexDigitChar 6, hexDigitChar 14, hexDigitChar 6, hexDigitChar 14, hexDigitChar 7]
    (by norm_num)
  norm_num at s6
  rw [natToHex, if_neg (by norm_num), s1, s2, s3, s4, s5, s6, natToHexAux_zero]
  decide

theorem renderHex_neg25 : renderHex (-25) (-25) (-25) = "#6E6E7" := by
  rw [renderHex,
    show jsShl 1 24 + jsShl (-25) 16 + jsShl (-25) 8 + (-25) = 15132391 from by decide,
    show intToString16 15132391 = natToHex 15132391 from by
      rw [intToString16, if_neg (by norm_num), show Int.toNat 15132391 = 15132391 from by decide],
    natToHex_15132391]
  decide

theorem hslChannels_200_50_50 : hslChannels 200 50 50 = (64, 149, 191) := by
  have hc : (1 - |2 * ((50 : ℚ) / 100) - 1|) * ((50 : ℚ) / 100) = 1 / 2 := by
    rw [show 2 * ((50 : ℚ) / 100) - 1 = 0 from by norm_num, abs_zero]
    norm_num
  have hx : (1 / 2 : ℚ) * (1 - |jsMod ((200 : ℚ) / 60) 2 - 1|) = 1 / 3 := by
    rw [jsMod_two 1 (by norm_num) (by push_cast; norm_num) (by push_cast; norm_num),
      show (200 : ℚ) / 60 - 2 * ((1 : ℤ) : ℚ) - 1 = 1 / 3 from by push_cast; norm_num,
      abs_of_nonneg (by norm_num)]
    norm_num
  have hm : (50 : ℚ) / 100 - (1 / 2) / 2 = 1 / 4 := by norm_num
  have heval := hslChannels_sector3 (1 / 2) (1 / 3) (1 / 4)
    ⟨by norm_num, by norm_num⟩ hc hx hm
  rw [heval]
  simp only [Prod.mk.injEq]
  refine ⟨?_, ?_, ?_⟩ <;> apply jsRound_eq <;> push_cast <;> norm_num

theorem hslChannels_400_0_100 : hslChannels 400 0 100 = (255, 255, 255) := by
  have hc : (1 - |2 * ((100 : ℚ) / 100) - 1|) * ((0 : ℚ) / 100) = 0 := by
    rw [show 2 * ((100 : ℚ) / 100) - 1 = 1 from by norm_num]
    norm_num
  have hm : (100 : ℚ) / 100 - 0 / 2 = 1 := by norm_num
  have heval := @hslChannels_fallthrough 400 0 100 0 1 (Or.inr (by norm_num)) hc hm
  rw [heval]
  simp only [Prod.mk.injEq]
  refine ⟨?_, ?_, ?_⟩ <;> apply jsRound_eq <;> push_cast <;> norm_num

theorem hslChannels_0_0_neg10 : hslChannels 0 0 (-10) = (-25, -25, -25) := by
  have hc : (1 - |2 * ((-10 : ℚ) / 100) - 1|) * ((0 : ℚ) / 100) = 0 := by
    norm_num
  have hx : (0 : ℚ) * (1 - |jsMod ((0 : ℚ) / 60) 2 - 1|) = 0 := zero_mul _
  have hm : (-10 : ℚ) / 100 - 0 / 2 = -1 / 10 := by norm_num
  have heval := hslChannels_sector0 0 0 (-1 / 10) ⟨le_refl 0, by norm_num⟩ hc hx hm
  rw [heval]
  simp only [Prod.mk.injEq]
  refine ⟨?_, ?_, ?_⟩ <;> apply jsRound_eq <;> push_cast <;> norm_num

theorem hslToHex_200_50_50 : hslToHex 200 50 50 = "#4095BF" := by
  simp only [hslToHex]
  rw [hslChannels_200_50_50]
  exact renderHex_64_149_191

theorem hslToHex_400_0_100 : hslToHex 400 0 100 = "#FFFFFF" := by
  simp only [hslToHex]
  rw [hslChannels_400_0_100]
  exact renderHex_255s

theorem hslToHex_0_0_neg10 : hslToHex 0 0 (-10) = "#6E6E7" := by
  simp only [hslToHex]
  rw [hslChannels_0_0_neg10]
  exact renderHex_neg25

theorem hexToHsl_000 : hexToHsl "#000" = .ok (some (0, 0, 0)) := by
  rw [show hexToHsl "#000" = hexToHslL ['0', '0', '0'] from rfl,
    hexToHslL_three (by decide) (by decide) (by decide),
    show ((16 * hexVal '0' + hexVal '0' : ℕ) : ℚ) / 255 = 0 from by
      rw [show (16 * hexVal '0' + hexVal '0' : ℕ) = 0 from by decide]; norm_num]
  simp [hslCore]

theorem hexToHsl_FFF : hexToHsl "#FFF" = .ok (some (0, 0, 100)) := by
  rw [show hexToHsl "#FFF" = hexToHslL ['F', 'F', 'F'] from rfl,
    hexToHslL_three (by decide) (by decide) (by decide),
    show ((16 * hexVal 'F' + hexVal 'F' : ℕ) : ℚ) / 255 = 1 from by
      rw [show (16 * hexVal 'F' + hexVal 'F' : ℕ) = 255 from by decide]; norm_num]
  simp [hslCore]

/-! ### Output shape of `hslToHex` for in-range saturation and lightness -/

theorem hslToHex_shape (h s l : ℚ) (hs0 : 0 ≤ s) (hs1 : s ≤ 100) (hl0 : 0 ≤ l)
    (hl1 : l ≤ 100) :
    ∃ out, hslToHex h s l = String.mk ('#' :: out) ∧ out.length = 6 ∧
      out.all isUpperHexDigit = true := by
  obtain ⟨q1, q2, q3, q4, q5, q6⟩ := hslChannels_bounds h s l hs0 hs1 hl0 hl1
  simp only [hslToHex]
  rw [renderHex_eq q1 q2 q3 q4 q5 q6]
  refine ⟨_, rfl, rfl, ?_⟩
  have t1 : (hslChannels h s l).1.toNat ≤ 255 := by omega
  have t2 : (hslChannels h s l).2.1.toNat ≤ 255 := by omega
  have t3 : (hslChannels h s l).2.2.toNat ≤ 255 := by omega
  simp only [List.all_cons, List.all_nil, Bool.and_eq_true]
  refine ⟨?_, ?_, ?_, ?_, ?_, ?_, trivial⟩ <;> exact upperHexDigit_ok _ (by omega)

theorem hexToHsl_0F699D :
    hexToHsl "#0F699D" =
      .ok (some (hslCore (((15 : ℕ) : ℚ) / 255) (((105 : ℕ) : ℚ) / 255)
        (((157 : ℕ) : ℚ) / 255))) := by
  rw [show hexToHsl "#0F699D" = hexToHslL ['0', 'F', '6', '9', '9', 'D'] from rfl,
    hexToHslL_six (by decide) (by decide) (by decide) (by decide) (by decide) (by decide),
    show (16 * hexVal '0' + hexVal 'F' : ℕ) = 15 from by decide,
    show (16 * hexVal '6' + hexVal '9' : ℕ) = 105 from by decide,
    show (16 * hexVal '9' + hexVal 'D' : ℕ) = 157 from by decide]

theorem hexToHsl_0f699d_lower :
    hexToHsl "#0f699d" =
      .ok (some (hslCore (((15 : ℕ) : ℚ) / 255) (((105 : ℕ) : ℚ) / 255)
        (((157 : ℕ) : ℚ) / 255))) := by
  rw [show hexToHsl "#0f699d" = hexToHslL ['0', 'f', '6', '9', '9', 'd'] from rfl,
    hexToHslL_six (by decide) (by decide) (by decide) (by decide) (by decide) (by decide),
    show (16 * hexVal '0' + hexVal 'f' : ℕ) = 15 from by decide,
    show (16 * hexVal '6' + hexVal '9' : ℕ) = 105 from by decide,
    show (16 * hexVal '9' + hexVal 'd' : ℕ) = 157 from by decide]

/-! ## Claims -/

/-- C1: for every hex color string accepted by `hexToHsl` with a numeric
triple `(h, s, l)` and every numeric percent, `lightenHexColor` returns
exactly `hslToHex h s 90`: the percent parameter and the computed
`newL = min 100 (l + percent)` are functionally discarded, and the literal
constant 90 is passed in the lightness position of the encoder. -/
theorem C1_lighten_is_hslToHex_90 (hex : String) (percent : ℚ) (h s l : ℚ)
    (hok : hexToHsl hex = .ok (some (h, s, l))) :
    lightenHexColor hex percent = .ok (hslToHex h s 90) := by
  simp only [lightenHexColor, hok]

/-- Witness for C1 at `lighten("#0F699D", 46.3)`. -/
theorem C1_lighten_is_hslToHex_90_witness :
    ∃ h s l, hexToHsl "#0F699D" = .ok (some (h, s, l)) ∧
      lightenHexColor "#0F699D" (463 / 10) = .ok (hslToHex h s 90) :=
  ⟨_, _, _, hexToHsl_0F699D,
    C1_lighten_is_hslToHex_90 "#0F699D" (463 / 10) _ _ _ hexToHsl_0F699D⟩

/-- C3: `hexToHsl` succeeds exactly when the input, after stripping an
optional leading `#`, has length 3 or 6 (whatever the characters are),
and `lightenHexColor` never fails on an input that `hexToHsl` accepts. -/
theorem C3_invalid_format_iff_length (str : String) :
    ((∃ v, hexToHsl str = .ok v) ↔
      ((stripHashL str.toList).length = 3 ∨ (stripHashL str.toList).length = 6)) ∧
    (∀ percent : ℚ, (∃ v, hexToHsl str = .ok v) →
      ∃ out, lightenHexColor str percent = .ok out) := by
  constructor
  · rw [hexToHsl]
    exact hexToHslL_ok_iff _
  · rintro percent ⟨v, hv⟩
    rcases v with _ | ⟨⟨h, s, l⟩⟩
    · exact ⟨"#000000", by simp only [lightenHexColor, hv]⟩
    · exact ⟨hslToHex h s 90, by simp only [lightenHexColor, hv]⟩

/-- Witness for C3 at the 3-digit input `"#123"`. -/
theorem C3_invalid_format_iff_length_witness :
    (∃ v, hexToHsl "#123" = .ok v) ∧ ∃ out, lightenHexColor "#123" 5 = .ok out :=
  ⟨(C3_invalid_format_iff_length "#123").1.mpr (Or.inl (by decide)),
    (C3_invalid_format_iff_length "#123").2 5
      ((C3_invalid_format_iff_length "#123").1.mpr (Or.inl (by decide)))⟩

/-- C4 as stated is false: `hslToHex 200 50 50` is not `"#40BFBF"`
(the documentation example in the source and the specification both
miscompute the green channel: `x + m = 7/12`, so the channel rounds to
`149 = 0x95`, not `0xBF`). -/
theorem C4_counterexample : hslToHex 200 50 50 ≠ "#40BFBF" := by
  rw [hslToHex_200_50_50]
  decide

/-- C4 amended: `hslToHex(200, 50, 50)` returns `"#4095BF"`. -/
theorem C4_hslToHex_200_50_50 : hslToHex 200 50 50 = "#4095BF" :=
  hslToHex_200_50_50

/-- C5 as stated is false: for the out-of-range hue 400 the six-sector
dispatch does yield `(r, g, b) = (0, 0, 0)`, but the lightness offset `m`
is still added to every channel, so with `l = 100` the result is
`"#FFFFFF"`, not `"#000000"`. -/
theorem C5_counterexample :
    hslToHex 400 0 100 = "#FFFFFF" ∧ ("#FFFFFF" : String) ≠ "#000000" :=
  ⟨hslToHex_400_0_100, by decide⟩

/-- C5 amended: for every hue with `h < 0` or `h ≥ 360` the six-sector
dispatch falls through, so the pre-offset channels are `(0, 0, 0)` and the
returned color is the achromatic value whose three equal channels are
`round(255·(0 + m))` with `m = l/100 − c/2` — black only when that offset
rounds to 0. -/
theorem C5_fallthrough_offset_only (h s l : ℚ) (hh : h < 0 ∨ 360 ≤ h) :
    hslChannels h s l =
      (jsRound ((0 + (l / 100 - (1 - |2 * (l / 100) - 1|) * (s / 100) / 2)) * 255),
        jsRound ((0 + (l / 100 - (1 - |2 * (l / 100) - 1|) * (s / 100) / 2)) * 255),
        jsRound ((0 + (l / 100 - (1 - |2 * (l / 100) - 1|) * (s / 100) / 2)) * 255)) ∧
    hslToHex h s l =
      renderHex (jsRound ((0 + (l / 100 - (1 - |2 * (l / 100) - 1|) * (s / 100) / 2)) * 255))
        (jsRound ((0 + (l / 100 - (1 - |2 * (l / 100) - 1|) * (s / 100) / 2)) * 255))
        (jsRound ((0 + (l / 100 - (1 - |2 * (l / 100) - 1|) * (s / 100) / 2)) * 255)) := by
  have heval := @hslChannels_fallthrough h s l ((1 - |2 * (l / 100) - 1|) * (s / 100))
    (l / 100 - (1 - |2 * (l / 100) - 1|) * (s / 100) / 2) hh rfl rfl
  refine ⟨heval, ?_⟩
  simp only [hslToHex]
  rw [heval]

/-- Witness for C5 at `(400, 0, 100)`. -/
theorem C5_fallthrough_offset_only_witness :
    hslToHex 400 0 100 =
      renderHex
        (jsRound ((0 + ((100 : ℚ) / 100 - (1 - |2 * ((100 : ℚ) / 100) - 1|) *
          ((0 : ℚ) / 100) / 2)) * 255))
        (jsRound ((0 + ((100 : ℚ) / 100 - (1 - |2 * ((100 : ℚ) / 100) - 1|) *
          ((0 : ℚ) / 100) / 2)) * 255))
        (jsRound ((0 + ((100 : ℚ) / 100 - (1 - |2 * ((100 : ℚ) / 100) - 1|) *
          ((0 : ℚ) / 100) / 2)) * 255)) :=
  (C5_fallthrough_offset_only 400 0 100 (Or.inr (by norm_num))).2

/-- C8: an achromatic input (all three channels equal) yields hue 0 and
saturation 0, and in particular `hexToHsl "#000" = (0, 0, 0)` and
`hexToHsl "#FFF" = (0, 0, 100)`. -/
theorem C8_achromatic (r g b : ℚ) (hrg : r = g) (hgb : g = b) :
    (∃ l, hslCore r g b = (0, 0, l)) ∧
      hexToHsl "#000" = .ok (some (0, 0, 0)) ∧
      hexToHsl "#FFF" = .ok (some (0, 0, 100)) := by
  refine ⟨?_, hexToHsl_000, hexToHsl_FFF⟩
  subst hgb
  subst hrg
  exact ⟨(r + r) / 2 * 100, by simp [hslCore]⟩

/-- Witness for C8 at the achromatic triple `(1/2, 1/2, 1/2)`. -/
theorem C8_achromatic_witness :
    (∃ l, hslCore (1 / 2) (1 / 2) (1 / 2) = (0, 0, l)) ∧
      hexToHsl "#000" = .ok (some (0, 0, 0)) ∧
      hexToHsl "#FFF" = .ok (some (0, 0, 100)) :=
  C8_achromatic (1 / 2) (1 / 2) (1 / 2) rfl rfl

/-- C10: calling `changetheme` with a non-empty color whose stripped length
is neither 3 nor 6 propagates the `InvalidFormat` error, but only after the
primary-color property has been overwritten with the malformed string; the
accent-color property is left unchanged — the operation is not atomic on
error. -/
theorem C10_error_after_primary_write (s : String) (st : StyleState) (hne : s ≠ "")
    (h3 : (stripHashL s.toList).length ≠ 3) (h6 : (stripHashL s.toList).length ≠ 6) :
    ∃ e, changetheme (some s) st = (setProperty st "--primary-color" s, .error e) ∧
      (changetheme (some s) st).1 "--accent-color" = st "--accent-color" := by
  have herr : hexToHsl s = .error "Invalid HEX color." := by
    rw [hexToHsl, hexToHslL, if_neg h3, if_neg h6]
  have hlt : lightenHexColor s (463 / 10) = .error "Invalid HEX color." := by
    simp only [lightenHexColor, herr]
  have hct : changetheme (some s) st = (setProperty st "--primary-color" s,
      .error "Invalid HEX color.") := by
    simp only [changetheme, if_neg hne, hlt]
  refine ⟨"Invalid HEX color.", hct, ?_⟩
  rw [hct]
  simp only [setProperty]
  rw [if_neg (by decide : ¬("--accent-color" : String) = "--primary-color")]

/-- Witness for C10 at the malformed input `"12"`. -/
theorem C10_error_after_primary_write_witness :
    ∃ e, changetheme (some "12") emptyStyle =
        (setProperty emptyStyle "--primary-color" "12", .error e) ∧
      (changetheme (some "12") emptyStyle).1 "--accent-color" =
        emptyStyle "--accent-color" :=
  C10_error_after_primary_write "12" emptyStyle (by decide) (by decide) (by decide)

theorem hexChannels_explicit (a b c d e f : Char) :
    hexChannels [a, b, c, d, e, f] =
      (16 * hexVal a + hexVal b, 16 * hexVal c + hexVal d, 16 * hexVal e + hexVal f) := rfl

/-- C6: on every valid hex input (stripped length 3 or 6, hexadecimal
digits) the triple returned by `hexToHsl` satisfies `0 ≤ h < 360`,
`0 ≤ s ≤ 100` and `0 ≤ l ≤ 100`. -/
theorem C6_hsl_ranges (str : String) (h s l : ℚ)
    (hval : ∀ c ∈ stripHashL str.toList, isHexDigit c = true)
    (hok : hexToHsl str = .ok (some (h, s, l))) :
    0 ≤ h ∧ h < 360 ∧ 0 ≤ s ∧ s ≤ 100 ∧ 0 ≤ l ∧ l ≤ 100 := by
  rw [hexToHsl] at hok
  exact hexToHslL_bounds_of_valid _ _ _ _ hval hok

/-- Witness for C6 at `"#0F699D"`. -/
theorem C6_hsl_ranges_witness :
    ∃ h s l, hexToHsl "#0F699D" = .ok (some (h, s, l)) ∧
      (0 ≤ h ∧ h < 360 ∧ 0 ≤ s ∧ s ≤ 100 ∧ 0 ≤ l ∧ l ≤ 100) :=
  ⟨_, _, _, hexToHsl_0F699D,
    C6_hsl_ranges "#0F699D" _ _ _ (by decide) hexToHsl_0F699D⟩

/-- C9 as stated is false: for the out-of-range lightness `l = -10` the
rounded channels are negative (−25), the packed value keeps only six hex
digits, and `slice(1)` leaves five, so `hslToHex 0 0 (-10) = "#6E6E7"` is a
6-character string, not 7. -/
theorem C9_counterexample :
    hslToHex 0 0 (-10) = "#6E6E7" ∧ ("#6E6E7" : String).length ≠ 7 :=
  ⟨hslToHex_0_0_neg10, by decide⟩

/-- C9 amended: whenever `0 ≤ s ≤ 100` and `0 ≤ l ≤ 100` (the hue may be
arbitrary), `hslToHex` returns a 7-character string: the `#` marker
followed by exactly 6 uppercase hexadecimal digits; the same holds for the
string returned by `lightenHexColor` on every valid hex input. -/
theorem C9_output_shape :
    (∀ h s l : ℚ, 0 ≤ s → s ≤ 100 → 0 ≤ l → l ≤ 100 →
      ∃ out, hslToHex h s l = String.mk ('#' :: out) ∧ out.length = 6 ∧
        out.all isUpperHexDigit = true ∧ (hslToHex h s l).length = 7) ∧
    (∀ (str : String) (percent : ℚ) (res : String),
      (∀ c ∈ stripHashL str.toList, isHexDigit c = true) →
      lightenHexColor str percent = .ok res →
      ∃ out, res = String.mk ('#' :: out) ∧ out.length = 6 ∧
        out.all isUpperHexDigit = true ∧ res.length = 7) := by
  have main : ∀ h s l : ℚ, 0 ≤ s → s ≤ 100 → 0 ≤ l → l ≤ 100 →
      ∃ out, hslToHex h s l = String.mk ('#' :: out) ∧ out.length = 6 ∧
        out.all isUpperHexDigit = true ∧ (hslToHex h s l).length = 7 := by
    intro h s l hs0 hs1 hl0 hl1
    obtain ⟨out, ho, hlen, hall⟩ := hslToHex_shape h s l hs0 hs1 hl0 hl1
    refine ⟨out, ho, hlen, hall, ?_⟩
    rw [ho]
    show ('#' :: out).length = 7
    rw [List.length_cons, hlen]
  refine ⟨main, ?_⟩
  intro str percent res hval hok
  match hres : hexToHsl str with
  | .error e =>
    rw [lightenHexColor, hres] at hok
    exact absurd hok (by simp)
  | .ok none =>
    rw [lightenHexColor, hres] at hok
    simp only [Except.ok.injEq] at hok
    subst hok
    exact ⟨['0', '0', '0', '0', '0', '0'], rfl, by decide, by decide, by decide⟩
  | .ok (some (h, s, l)) =>
    rw [lightenHexColor, hres] at hok
    simp only [Except.ok.injEq] at hok
    subst hok
    have hres' := hres
    rw [hexToHsl] at hres'
    obtain ⟨_, _, hs2, hs3, _, _⟩ := hexToHslL_bounds_of_valid _ _ _ _ hval hres'
    exact main _ _ _ hs2 hs3 (by norm_num) (by norm_num)

/-- Witness for C9's amended statement at `(0, 0, 50)`. -/
theorem C9_output_shape_witness :
    ∃ out, hslToHex 0 0 50 = String.mk ('#' :: out) ∧ out.length = 6 ∧
      out.all isUpperHexDigit = true ∧ (hslToHex 0 0 50).length = 7 :=
  C9_output_shape.1 0 0 50 (le_refl 0) (by norm_num) (by norm_num) (by norm_num)

/-- C7 as stated is false: the default primary color written by
`changetheme` is the lowercase literal `"#0f699d"`, which is not the
verbatim string `"#0F699D"` the claim requires. -/
theorem C7_counterexample :
    (changetheme none emptyStyle).1 "--primary-color" = some "#0f699d" ∧
      (some "#0f699d" : Option String) ≠ some "#0F699D" := by
  have hlt : lightenHexColor "#0f699d" (463 / 10) =
      .ok (hslToHex
        (hslCore (((15 : ℕ) : ℚ) / 255) (((105 : ℕ) : ℚ) / 255) (((157 : ℕ) : ℚ) / 255)).1
        (hslCore (((15 : ℕ) : ℚ) / 255) (((105 : ℕ) : ℚ) / 255) (((157 : ℕ) : ℚ) / 255)).2.1
        90) := by
    simp only [lightenHexColor, hexToHsl_0f699d_lower]
  constructor
  · simp only [changetheme, hlt, setProperty]
    simp
  · decide

/-- C7 amended: when `changetheme` is called with no color or the empty
string, it writes the lowercase literal `"#0f699d"` verbatim to the
primary-color property and writes `lighten("#0f699d", 46.3)` — which equals
`lighten("#0F699D", 46.3)`, hex parsing being case-insensitive — to the
accent-color property. -/
theorem C7_default_lowercase (tc : Option String) (st : StyleState)
    (htc : tc = none ∨ tc = some "") :
    ∃ accent, lightenHexColor "#0f699d" (463 / 10) = .ok accent ∧
      lightenHexColor "#0F699D" (463 / 10) = .ok accent ∧
      changetheme tc st =
        (setProperty (setProperty st "--primary-color" "#0f699d") "--accent-color" accent,
          .ok ()) := by
  have hlt : lightenHexColor "#0f699d" (463 / 10) =
      .ok (hslToHex
        (hslCore (((15 : ℕ) : ℚ) / 255) (((105 : ℕ) : ℚ) / 255) (((157 : ℕ) : ℚ) / 255)).1
        (hslCore (((15 : ℕ) : ℚ) / 255) (((105 : ℕ) : ℚ) / 255) (((157 : ℕ) : ℚ) / 255)).2.1
        90) := by
    simp only [lightenHexColor, hexToHsl_0f699d_lower]
  have hlt2 : lightenHexColor "#0F699D" (463 / 10) =
      .ok (hslToHex
        (hslCore (((15 : ℕ) : ℚ) / 255) (((105 : ℕ) : ℚ) / 255) (((157 : ℕ) : ℚ) / 255)).1
        (hslCore (((15 : ℕ) : ℚ) / 255) (((105 : ℕ) : ℚ) / 255) (((157 : ℕ) : ℚ) / 255)).2.1
        90) := by
    simp only [lightenHexColor, hexToHsl_0F699D]
  refine ⟨_, hlt, hlt2, ?_⟩
  rcases htc with rfl | rfl
  · simp only [changetheme, hlt]
  · simp only [changetheme, if_true, hlt]

/-- Witness for C7's amended statement with no argument on the empty sink. -/
theorem C7_default_lowercase_witness :
    ∃ accent, lightenHexColor "#0f699d" (463 / 10) = .ok accent ∧
      lightenHexColor "#0F699D" (463 / 10) = .ok accent ∧
      changetheme none emptyStyle =
        (setProperty (setProperty emptyStyle "--primary-color" "#0f699d")
          "--accent-color" accent, .ok ()) :=
  C7_default_lowercase none emptyStyle (Or.inl rfl)

/-- C2: on every valid 6-digit hex color, `hslToHex` applied to the triple
returned by `hexToHsl` reproduces the original color within ±1 per 8-bit
channel (the round trip is in fact exact). -/
theorem C2_roundtrip_within_one (str : String)
    (hlen : (stripHashL str.toList).length = 6)
    (hval : ∀ c ∈ stripHashL str.toList, isHexDigit c = true) :
    ∃ h s l out, hexToHsl str = .ok (some (h, s, l)) ∧
      hslToHex h s l = String.mk ('#' :: out) ∧ out.length = 6 ∧
      (((hexChannels out).1 : ℤ) - ((hexChannels (stripHashL str.toList)).1 : ℤ)).natAbs ≤ 1 ∧
      (((hexChannels out).2.1 : ℤ) -
        ((hexChannels (stripHashL str.toList)).2.1 : ℤ)).natAbs ≤ 1 ∧
      (((hexChannels out).2.2 : ℤ) -
        ((hexChannels (stripHashL str.toList)).2.2 : ℤ)).natAbs ≤ 1 := by
  obtain ⟨c0, c1, c2, c3, c4, c5, heq⟩ := list_len_six _ hlen
  rw [heq] at hval
  have g0 := hval c0 (by simp)
  have g1 := hval c1 (by simp)
  have g2 := hval c2 (by simp)
  have g3 := hval c3 (by simp)
  have g4 := hval c4 (by simp)
  have g5 := hval c5 (by simp)
  have hn0 : (16 * hexVal c0 + hexVal c1 : ℕ) ≤ 255 := channel_le_255 _ _
  have hn1 : (16 * hexVal c2 + hexVal c3 : ℕ) ≤ 255 := channel_le_255 _ _
  have hn2 : (16 * hexVal c4 + hexVal c5 : ℕ) ≤ 255 := channel_le_255 _ _
  obtain ⟨hb1, hb2⟩ := channel_q_bounds _ hn0
  obtain ⟨hb3, hb4⟩ := channel_q_bounds _ hn1
  obtain ⟨hb5, hb6⟩ := channel_q_bounds _ hn2
  have hok : hexToHsl str =
      .ok (some (hslCore (((16 * hexVal c0 + hexVal c1 : ℕ) : ℚ) / 255)
        (((16 * hexVal c2 + hexVal c3 : ℕ) : ℚ) / 255)
        (((16 * hexVal c4 + hexVal c5 : ℕ) : ℚ) / 255))) := by
    rw [hexToHsl, heq, hexToHslL_six g0 g1 g2 g3 g4 g5]
  have hrt := hsl_roundtrip_exact _ _ _ hb1 hb2 hb3 hb4 hb5 hb6
  have hr0 : jsRound ((((16 * hexVal c0 + hexVal c1 : ℕ) : ℚ) / 255) * 255) =
      ((16 * hexVal c0 + hexVal c1 : ℕ) : ℤ) := by
    rw [show (((16 * hexVal c0 + hexVal c1 : ℕ) : ℚ) / 255) * 255 =
      (((16 * hexVal c0 + hexVal c1 : ℕ) : ℤ) : ℚ) from by push_cast; ring]
    exact jsRound_intCast _
  have hr1 : jsRound ((((16 * hexVal c2 + hexVal c3 : ℕ) : ℚ) / 255) * 255) =
      ((16 * hexVal c2 + hexVal c3 : ℕ) : ℤ) := by
    rw [show (((16 * hexVal c2 + hexVal c3 : ℕ) : ℚ) / 255) * 255 =
      (((16 * hexVal c2 + hexVal c3 : ℕ) : ℤ) : ℚ) from by push_cast; ring]
    exact jsRound_intCast _
  have hr2 : jsRound ((((16 * hexVal c4 + hexVal c5 : ℕ) : ℚ) / 255) * 255) =
      ((16 * hexVal c4 + hexVal c5 : ℕ) : ℤ) := by
    rw [show (((16 * hexVal c4 + hexVal c5 : ℕ) : ℚ) / 255) * 255 =
      (((16 * hexVal c4 + hexVal c5 : ℕ) : ℤ) : ℚ) from by push_cast; ring]
    exact jsRound_intCast _
  rw [hr0, hr1, hr2] at hrt
  have hsh : hslToHex
      (hslCore (((16 * hexVal c0 + hexVal c1 : ℕ) : ℚ) / 255)
        (((16 * hexVal c2 + hexVal c3 : ℕ) : ℚ) / 255)
        (((16 * hexVal c4 + hexVal c5 : ℕ) : ℚ) / 255)).1
      (hslCore (((16 * hexVal c0 + hexVal c1 : ℕ) : ℚ) / 255)
        (((16 * hexVal c2 + hexVal c3 : ℕ) : ℚ) / 255)
        (((16 * hexVal c4 + hexVal c5 : ℕ) : ℚ) / 255)).2.1
      (hslCore (((16 * hexVal c0 + hexVal c1 : ℕ) : ℚ) / 255)
        (((16 * hexVal c2 + hexVal c3 : ℕ) : ℚ) / 255)
        (((16 * hexVal c4 + hexVal c5 : ℕ) : ℚ) / 255)).2.2 =
      String.mk ('#' ::
        [Char.toUpper (hexDigitChar ((16 * hexVal c0 + hexVal c1) / 16)),
         Char.toUpper (hexDigitChar ((16 * hexVal c0 + hexVal c1) % 16)),
         Char.toUpper (hexDigitChar ((16 * hexVal c2 + hexVal c3) / 16)),
         Char.toUpper (hexDigitChar ((16 * hexVal c2 + hexVal c3) % 16)),
         Char.toUpper (hexDigitChar ((16 * hexVal c4 + hexVal c5) / 16)),
         Char.toUpper (hexDigitChar ((16 * hexVal c4 + hexVal c5) % 16))]) := by
    simp only [hslToHex]
    rw [hrt, renderHex_eq (Int.natCast_nonneg _) (by exact_mod_cast hn0)
      (Int.natCast_nonneg _) (by exact_mod_cast hn1)
      (Int.natCast_nonneg _) (by exact_mod_cast hn2)]
    simp only [Int.toNat_natCast]
  refine ⟨_, _, _, _, hok, hsh, rfl, ?_, ?_, ?_⟩
  · rw [heq, hexChannels_explicit, hexChannels_explicit]
    dsimp only
    rw [hexVal_toUpper_digit ((16 * hexVal c0 + hexVal c1) / 16) (by omega),
      hexVal_toUpper_digit ((16 * hexVal c0 + hexVal c1) % 16) (by omega)]
    omega
  · rw [heq, hexChannels_explicit, hexChannels_explicit]
    dsimp only
    rw [hexVal_toUpper_digit ((16 * hexVal c2 + hexVal c3) / 16) (by omega),
      hexVal_toUpper_digit ((16 * hexVal c2 + hexVal c3) % 16) (by omega)]
    omega
  · rw [heq, hexChannels_explicit, hexChannels_explicit]
    dsimp only
    rw [hexVal_toUpper_digit ((16 * hexVal c4 + hexVal c5) / 16) (by omega),
      hexVal_toUpper_digit ((16 * hexVal c4 + hexVal c5) % 16) (by omega)]
    omega

/-- Witness for C2 at `"#0F699D"`. -/
theorem C2_roundtrip_within_one_witness :
    ∃ h s l out, hexToHsl "#0F699D" = .ok (some (h, s, l)) ∧
      hslToHex h s l = String.mk ('#' :: out) ∧ out.length = 6 ∧
      (((hexChannels out).1 : ℤ) -
        ((hexChannels (stripHashL ("#0F699D" : String).toList)).1 : ℤ)).natAbs ≤ 1 ∧
      (((hexChannels out).2.1 : ℤ) -
        ((hexChannels (stripHashL ("#0F699D" : String).toList)).2.1 : ℤ)).natAbs ≤ 1 ∧
      (((hexChannels out).2.2 : ℤ) -
        ((hexChannels (stripHashL ("#0F699D" : String).toList)).2.2 : ℤ)).natAbs ≤ 1 :=
  C2_roundtrip_within_one "#0F699D" (by decide) (by decide)
